import Mathlib

/-!
Shallow embedding of the world-generation backend (`backend/src/app.py`):
Perlin-style fractal noise generation (`lerp`, `fade`, `gradient`,
`generate_perlin_noise`) and terrain classification (the threshold loop of the
`generate_world` route).  Python floats are modelled exactly by `ℚ`; the
module-global `random` generator is modelled by an abstract state type `σ`
threaded explicitly through every call, together with the only two operations
the source performs on it (`random.seed(n)` and `random.randint(0, 7)`).
Python exceptions (`ValueError` from `np.zeros` / `np.min`, and
`ZeroDivisionError`) are modelled with `Except String`.
-/

namespace WorldGen

/-- Abstract interface of the pseudo-random generator the source uses:
`reseed` models `random.seed(n)` (building a generator state from the integer
`n`), and `randint8` models `random.randint(0, 7)` (one draw of an index in
`[0, 8)` together with the advanced generator state). -/
structure PRNG (σ : Type) where
  reseed : Int → σ
  randint8 : σ → Fin 8 × σ

/-- `lerp(a, b, x) = a + x * (b - a)`. -/
def lerp (a b x : ℚ) : ℚ := a + x * (b - a)

/-- `fade(t) = t*t*t*(t*(t*6 - 15) + 10)`. -/
def fade (t : ℚ) : ℚ := t * t * t * (t * (t * 6 - 15) + 10)

/-- The fixed table of 8 gradient vectors of `gradient`:
`[(1,0), (-1,0), (0,1), (0,-1), (1,1), (1,-1), (-1,1), (-1,-1)]`. -/
def gradients : Fin 8 → Int × Int
  | 0 => (1, 0)
  | 1 => (-1, 0)
  | 2 => (0, 1)
  | 3 => (0, -1)
  | 4 => (1, 1)
  | 5 => (1, -1)
  | 6 => (-1, 1)
  | 7 => (-1, -1)

/-- `gradient(ix, iy, x, y, random_seed)`.  The incoming global generator state
`st` is the state of the `random` module before the call; the call re-seeds it
with `random_seed + ix*100000 + iy*1000`, draws one index in `[0, 8)`, and
returns the dot product of the selected gradient vector with the displacement
`(x - ix, y - iy)` together with the generator state left behind. -/
def gradient {σ : Type} (P : PRNG σ) (st : σ) (ix iy : Int) (x y : ℚ)
    (random_seed : Int) : ℚ × σ :=
  let s1 : σ := P.reseed (random_seed + ix * 100000 + iy * 1000)
  let draw : Fin 8 × σ := P.randint8 s1
  let grad_vec : Int × Int := gradients draw.1
  let dx : ℚ := x - (ix : ℚ)
  let dy : ℚ := y - (iy : ℚ)
  ((grad_vec.1 : ℚ) * dx + (grad_vec.2 : ℚ) * dy, draw.2)

/-- Value component of `gradient`, as a pure function (the source body never
reads the incoming generator state: it re-seeds before drawing). -/
def gradVal {σ : Type} (P : PRNG σ) (ix iy : Int) (x y : ℚ)
    (random_seed : Int) : ℚ :=
  let draw : Fin 8 × σ := P.randint8 (P.reseed (random_seed + ix * 100000 + iy * 1000))
  let grad_vec : Int × Int := gradients draw.1
  (grad_vec.1 : ℚ) * (x - (ix : ℚ)) + (grad_vec.2 : ℚ) * (y - (iy : ℚ))

/-- Generator state left behind by one `gradient` call (depends only on the
seed and the cell, not on the incoming state). -/
def gradState {σ : Type} (P : PRNG σ) (ix iy : Int) (random_seed : Int) : σ :=
  (P.randint8 (P.reseed (random_seed + ix * 100000 + iy * 1000))).2

/-- One octave of the per-pixel loop body of `generate_perlin_noise`: corner
lookup, fade weights, the four `gradient` calls (threading the global generator
state in program order), and the bilinear interpolation. -/
def octaveStep {σ : Type} (P : PRNG σ) (sample_x sample_y : ℚ) (seed : Int)
    (st : σ) : ℚ × σ :=
  let x0 : Int := Int.floor sample_x
  let x1 : Int := x0 + 1
  let y0 : Int := Int.floor sample_y
  let y1 : Int := y0 + 1
  let sx : ℚ := fade (sample_x - (x0 : ℚ))
  let sy : ℚ := fade (sample_y - (y0 : ℚ))
  let r0 := gradient P st x0 y0 sample_x sample_y seed
  let r1 := gradient P r0.2 x1 y0 sample_x sample_y seed
  let r2 := gradient P r1.2 x0 y1 sample_x sample_y seed
  let r3 := gradient P r2.2 x1 y1 sample_x sample_y seed
  let ix0 : ℚ := lerp r0.1 r1.1 sx
  let ix1 : ℚ := lerp r2.1 r3.1 sx
  (lerp ix0 ix1 sy, r3.2)

/-- Value component of `octaveStep`, as a pure function. -/
def octaveVal {σ : Type} (P : PRNG σ) (sample_x sample_y : ℚ) (seed : Int) : ℚ :=
  let x0 : Int := Int.floor sample_x
  let x1 : Int := x0 + 1
  let y0 : Int := Int.floor sample_y
  let y1 : Int := y0 + 1
  let sx : ℚ := fade (sample_x - (x0 : ℚ))
  let sy : ℚ := fade (sample_y - (y0 : ℚ))
  let n0 : ℚ := gradVal P x0 y0 sample_x sample_y seed
  let n1 : ℚ := gradVal P x1 y0 sample_x sample_y seed
  let n2 : ℚ := gradVal P x0 y1 sample_x sample_y seed
  let n3 : ℚ := gradVal P x1 y1 sample_x sample_y seed
  let ix0 : ℚ := lerp n0 n1 sx
  let ix1 : ℚ := lerp n2 n3 sx
  lerp ix0 ix1 sy

/-- `amplitudes_config`: the list `[(lacunarity^i, persistence^i) | i < octaves]`
(the source also accumulates `max_amplitude`, which it never uses afterwards;
it is omitted).  A negative `octaves` gives the empty list, as `range` does. -/
def amplitudes_config (octaves : Int) (persistence lacunarity : ℚ) :
    List (ℚ × ℚ) :=
  (List.range octaves.toNat).map fun octave => (lacunarity ^ octave, persistence ^ octave)

/-- Inner octave loop for one pixel `(x, y)`: folds `noise_value` and the global
generator state over the octave configurations, exactly as the source loop
`for i in range(octaves)` does. -/
def pixelNoise {σ : Type} (P : PRNG σ) (x y : Nat) (scale : ℚ) (seed : Int) :
    List (ℚ × ℚ) → ℚ × σ → ℚ × σ
  | [], acc => acc
  | fa :: rest, acc =>
    let sample_x : ℚ := (x : ℚ) / scale * fa.1
    let sample_y : ℚ := (y : ℚ) / scale * fa.1
    let r := octaveStep P sample_x sample_y seed acc.2
    pixelNoise P x y scale seed rest (acc.1 + r.1 * fa.2, r.2)

/-- Value component of `pixelNoise`, as a pure accumulation. -/
def pixelVal {σ : Type} (P : PRNG σ) (x y : Nat) (scale : ℚ) (seed : Int) :
    List (ℚ × ℚ) → ℚ → ℚ
  | [], v => v
  | fa :: rest, v =>
    pixelVal P x y scale seed rest
      (v + octaveVal P ((x : ℚ) / scale * fa.1) ((y : ℚ) / scale * fa.1) seed * fa.2)

/-- The loop `for x in range(width)` over one row `y`, building the row of raw
noise values and threading the global generator state. -/
def rowLoop {σ : Type} (P : PRNG σ) (cfg : List (ℚ × ℚ)) (y : Nat) (scale : ℚ)
    (seed : Int) : List Nat → σ → List ℚ × σ
  | [], st => ([], st)
  | x :: xs, st =>
    let r := pixelNoise P x y scale seed cfg (0, st)
    let rest := rowLoop P cfg y scale seed xs r.2
    (r.1 :: rest.1, rest.2)

/-- The loop `for y in range(height)`, building the raw noise map row by row. -/
def gridLoop {σ : Type} (P : PRNG σ) (cfg : List (ℚ × ℚ)) (w : Nat) (scale : ℚ)
    (seed : Int) : List Nat → σ → List (List ℚ) × σ
  | [], st => ([], st)
  | y :: ys, st =>
    let r := rowLoop P cfg y scale seed (List.range w) st
    let rest := gridLoop P cfg w scale seed ys r.2
    (r.1 :: rest.1, rest.2)

/-- The raw (pre-normalization) noise map of `generate_perlin_noise`, together
with the final global generator state. -/
def rawGrid {σ : Type} (P : PRNG σ) (width height octaves : Int)
    (persistence lacunarity scale : ℚ) (seed : Int) (st : σ) :
    List (List ℚ) × σ :=
  gridLoop P (amplitudes_config octaves persistence lacunarity) width.toNat
    scale seed (List.range height.toNat) st

/-- The raw noise map written without the generator-state plumbing (each
`gradient` call ignores the incoming state, so the values do not depend on it;
`rawGrid_fst` proves the agreement). -/
def pureRaw {σ : Type} (P : PRNG σ) (width height octaves : Int)
    (persistence lacunarity scale : ℚ) (seed : Int) : List (List ℚ) :=
  (List.range height.toNat).map fun y =>
    (List.range width.toNat).map fun x =>
      pixelVal P x y scale seed (amplitudes_config octaves persistence lacunarity) 0

/-- `np.min` over a nonempty collection `a :: l`. -/
def listMin (a : ℚ) (l : List ℚ) : ℚ := l.foldl min a

/-- `np.max` over a nonempty collection `a :: l`. -/
def listMax (a : ℚ) (l : List ℚ) : ℚ := l.foldl max a

/-- The normalization tail of `generate_perlin_noise`: global min/max in one
pass, rescale to `[0, 1]`, or fill with `0.5` when `max - min` is not positive.
`np.min` of a zero-size array raises `ValueError`, modelled by the error
branch. -/
def normalizeMap (noise_map : List (List ℚ)) : Except String (List (List ℚ)) :=
  match noise_map.flatten with
  | [] => Except.error "zero-size array to reduction operation minimum"
  | v :: vs =>
    let min_val : ℚ := listMin v vs
    let max_val : ℚ := listMax v vs
    if max_val - min_val > 0 then
      Except.ok (noise_map.map (List.map fun c => (c - min_val) / (max_val - min_val)))
    else
      Except.ok (noise_map.map (List.map fun _ => (0.5 : ℚ)))

/-- `generate_perlin_noise(width, height, octaves, persistence, lacunarity,
scale, seed)` run on global generator state `st`.  `np.zeros((height, width))`
raises `ValueError` when a dimension is negative; the first evaluation of
`x / scale` raises `ZeroDivisionError` when `scale == 0` and all three loops
are nonempty; otherwise the raw map is built and normalized. -/
def generate_perlin_noise {σ : Type} (P : PRNG σ) (width height octaves : Int)
    (persistence lacunarity scale : ℚ) (seed : Int) (st : σ) :
    Except String (List (List ℚ)) :=
  if width < 0 ∨ height < 0 then
    Except.error "negative dimensions are not allowed"
  else if scale = 0 ∧ 1 ≤ width ∧ 1 ≤ height ∧ 1 ≤ octaves then
    Except.error "float division by zero"
  else
    normalizeMap (rawGrid P width height octaves persistence lacunarity scale seed st).1

/-- The threshold classification of the `generate_world` route:
`< 0.4` is water `0`, `< 0.7` is grass `1`, otherwise mountain `2`. -/
def classify (noise_val : ℚ) : Nat :=
  if noise_val < 0.4 then 0
  else if noise_val < 0.7 then 1
  else 2

/-- Pointwise classification of a whole normalized map into terrain tiles. -/
def classifyGrid (noise_map : List (List ℚ)) : List (List Nat) :=
  noise_map.map (List.map classify)

/-- The full pipeline checked by the spec: noise generation followed by
classification, with all generation parameters explicit. -/
def fullPipeline {σ : Type} (P : PRNG σ) (width height octaves : Int)
    (persistence lacunarity scale : ℚ) (seed : Int) (st : σ) :
    Except String (List (List Nat)) :=
  (generate_perlin_noise P width height octaves persistence lacunarity scale seed st).map
    classifyGrid

/-- The `generate_world` route body: fixed parameters `octaves=4`,
`persistence=0.01`, `lacunarity=2.0`, `scale=30.0`, with `size` as both
dimensions. -/
def generate_world {σ : Type} (P : PRNG σ) (st : σ) (seed size : Int) :
    Except String (List (List Nat)) :=
  (generate_perlin_noise P size size 4 (0.01 : ℚ) 2 30 seed st).map classifyGrid

/-- A concrete executable generator instance (integer state, identity
re-seeding, one modular draw per call), used to evaluate the embedding on
concrete inputs. -/
def intPRNG : PRNG Int where
  reseed := fun n => n
  randint8 := fun s => (⟨(s % 8).toNat, by omega⟩, s + 1)

end WorldGen

namespace WorldGen

/-! ### Basic lemmas about the embedding -/

/-- A `gradient` call splits into its pure value and its successor state:
the body never reads the incoming generator state. -/
theorem gradient_eq {σ : Type} (P : PRNG σ) (st : σ) (ix iy : Int) (x y : ℚ)
    (seed : Int) :
    gradient P st ix iy x y seed = (gradVal P ix iy x y seed, gradState P ix iy seed) := rfl

/-- One octave step splits into its pure value and the state left by the last
corner's `gradient` call. -/
theorem octaveStep_eq {σ : Type} (P : PRNG σ) (sx sy : ℚ) (seed : Int) (st : σ) :
    octaveStep P sx sy seed st =
      (octaveVal P sx sy seed,
       gradState P (Int.floor sx + 1) (Int.floor sy + 1) seed) := rfl

theorem pixelNoise_fst {σ : Type} (P : PRNG σ) (x y : Nat) (scale : ℚ) (seed : Int) :
    ∀ (cfg : List (ℚ × ℚ)) (acc : ℚ × σ),
      (pixelNoise P x y scale seed cfg acc).1 = pixelVal P x y scale seed cfg acc.1
  | [], acc => rfl
  | fa :: rest, acc => by
    show (pixelNoise P x y scale seed rest _).1 = _
    rw [pixelNoise_fst P x y scale seed rest]
    simp only [octaveStep_eq]
    rfl

theorem rowLoop_fst {σ : Type} (P : PRNG σ) (cfg : List (ℚ × ℚ)) (y : Nat)
    (scale : ℚ) (seed : Int) :
    ∀ (xs : List Nat) (st : σ),
      (rowLoop P cfg y scale seed xs st).1 =
        xs.map fun x => pixelVal P x y scale seed cfg 0
  | [], st => rfl
  | x :: xs, st => by
    show _ :: (rowLoop P cfg y scale seed xs _).1 = _
    rw [rowLoop_fst P cfg y scale seed xs, pixelNoise_fst]
    rfl

theorem gridLoop_fst {σ : Type} (P : PRNG σ) (cfg : List (ℚ × ℚ)) (w : Nat)
    (scale : ℚ) (seed : Int) :
    ∀ (ys : List Nat) (st : σ),
      (gridLoop P cfg w scale seed ys st).1 =
        ys.map fun y => (List.range w).map fun x => pixelVal P x y scale seed cfg 0
  | [], st => rfl
  | y :: ys, st => by
    show _ :: (gridLoop P cfg w scale seed ys _).1 = _
    rw [gridLoop_fst P cfg w scale seed ys, rowLoop_fst]
    rfl

/-- The raw noise map does not depend on the incoming global generator state. -/
theorem rawGrid_fst {σ : Type} (P : PRNG σ) (width height octaves : Int)
    (persistence lacunarity scale : ℚ) (seed : Int) (st : σ) :
    (rawGrid P width height octaves persistence lacunarity scale seed st).1 =
      pureRaw P width height octaves persistence lacunarity scale seed := by
  unfold rawGrid pureRaw
  rw [gridLoop_fst]

/-- The per-pixel accumulation is the sum of amplitude-weighted octave values. -/
theorem pixelVal_eq_sum {σ : Type} (P : PRNG σ) (x y : Nat) (scale : ℚ) (seed : Int) :
    ∀ (cfg : List (ℚ × ℚ)) (v : ℚ),
      pixelVal P x y scale seed cfg v =
        v + (cfg.map fun fa =>
          octaveVal P ((x : ℚ) / scale * fa.1) ((y : ℚ) / scale * fa.1) seed * fa.2).sum
  | [], v => by simp [pixelVal]
  | fa :: rest, v => by
    show pixelVal P x y scale seed rest _ = _
    rw [pixelVal_eq_sum P x y scale seed rest]
    simp [List.sum_cons]
    ring

/-! ### Min / max of a nonempty list -/

theorem listMin_le_head (l : List ℚ) : ∀ a : ℚ, listMin a l ≤ a := by
  induction l with
  | nil => intro a; exact le_refl a
  | cons b t ih =>
    intro a
    have hstep : listMin a (b :: t) = listMin (min a b) t := rfl
    rw [hstep]
    exact le_trans (ih (min a b)) (min_le_left _ _)

theorem head_le_listMax (l : List ℚ) : ∀ a : ℚ, a ≤ listMax a l := by
  induction l with
  | nil => intro a; exact le_refl a
  | cons b t ih =>
    intro a
    have hstep : listMax a (b :: t) = listMax (max a b) t := rfl
    rw [hstep]
    exact le_trans (le_max_left _ _) (ih (max a b))

theorem listMin_le {a x : ℚ} {l : List ℚ} (h : x ∈ a :: l) : listMin a l ≤ x := by
  induction l generalizing a with
  | nil =>
    simp only [List.mem_singleton] at h
    simp [listMin, h]
  | cons b t ih =>
    have hstep : listMin a (b :: t) = listMin (min a b) t := rfl
    rw [hstep]
    rcases List.mem_cons.1 h with h1 | h2
    · exact h1 ▸ le_trans (listMin_le_head t _) (min_le_left _ _)
    · rcases List.mem_cons.1 h2 with h3 | h4
      · exact h3 ▸ le_trans (listMin_le_head t _) (min_le_right _ _)
      · exact ih (List.mem_cons_of_mem _ h4)

theorem le_listMax {a x : ℚ} {l : List ℚ} (h : x ∈ a :: l) : x ≤ listMax a l := by
  induction l generalizing a with
  | nil =>
    simp only [List.mem_singleton] at h
    simp [listMax, h]
  | cons b t ih =>
    have hstep : listMax a (b :: t) = listMax (max a b) t := rfl
    rw [hstep]
    rcases List.mem_cons.1 h with h1 | h2
    · exact h1 ▸ le_trans (le_max_left _ _) (head_le_listMax t _)
    · rcases List.mem_cons.1 h2 with h3 | h4
      · exact h3 ▸ le_trans (le_max_right _ _) (head_le_listMax t _)
      · exact ih (List.mem_cons_of_mem _ h4)

theorem listMin_mem (a : ℚ) (l : List ℚ) : listMin a l ∈ a :: l := by
  induction l generalizing a with
  | nil => simp [listMin]
  | cons b t ih =>
    have hstep : listMin a (b :: t) = listMin (min a b) t := rfl
    rw [hstep]
    rcases List.mem_cons.1 (ih (min a b)) with h1 | h2
    · rcases le_total a b with hab | hba
      · rw [h1, min_eq_left hab]; exact List.mem_cons_self _ _
      · rw [h1, min_eq_right hba]
        exact List.mem_cons_of_mem _ (List.mem_cons_self _ _)
    · exact List.mem_cons_of_mem _ (List.mem_cons_of_mem _ h2)

theorem listMax_mem (a : ℚ) (l : List ℚ) : listMax a l ∈ a :: l := by
  induction l generalizing a with
  | nil => simp [listMax]
  | cons b t ih =>
    have hstep : listMax a (b :: t) = listMax (max a b) t := rfl
    rw [hstep]
    rcases List.mem_cons.1 (ih (max a b)) with h1 | h2
    · rcases le_total a b with hab | hba
      · rw [h1, max_eq_right hab]
        exact List.mem_cons_of_mem _ (List.mem_cons_self _ _)
      · rw [h1, max_eq_left hba]; exact List.mem_cons_self _ _
    · exact List.mem_cons_of_mem _ (List.mem_cons_of_mem _ h2)

end WorldGen

namespace WorldGen

/-! ### Spec-side reference definitions (for refinement claims) -/

/-- The GradientSampler contract as the spec words it: derive
`localSeed = seed + cellX*100000 + cellY*1000`, re-seed, draw one index in
`[0, 8)`, select from the fixed table, and return the dot product of the
selected gradient with the displacement `(sampleX - cellX, sampleY - cellY)`. -/
def gradientInfluenceSpec {σ : Type} (P : PRNG σ) (cellX cellY : Int)
    (sampleX sampleY : ℚ) (seed : Int) : ℚ :=
  let localSeed : Int := seed + cellX * 100000 + cellY * 1000
  let idx : Fin 8 := (P.randint8 (P.reseed localSeed)).1
  let g : Int × Int := gradients idx
  (g.1 : ℚ) * (sampleX - (cellX : ℚ)) + (g.2 : ℚ) * (sampleY - (cellY : ℚ))

/-- The table of gradient vectors named by the spec: the 4 axis directions and
the 4 non-normalized diagonals. -/
def specGradientTable : List (Int × Int) :=
  [(1, 0), (-1, 0), (0, 1), (0, -1), (1, 1), (1, -1), (-1, 1), (-1, -1)]

/-! ### Helper facts about octave values at integer lattice points -/

/-- A single octave evaluated at a sample point with integer coordinates is
exactly `0`: the displacement to corner `(x0, y0)` is `(0, 0)` and both fade
weights are `fade 0 = 0`. -/
theorem octaveVal_intCast {σ : Type} (P : PRNG σ) (m n : Int) (seed : Int) :
    octaveVal P (m : ℚ) (n : ℚ) seed = 0 := by
  unfold octaveVal gradVal lerp fade
  simp [Int.floor_intCast, sub_self]

/-- At pixel `(0, 0)` every octave's sample point is `(0, 0)`, so the raw
accumulated value stays at its initial value. -/
theorem pixelVal_origin {σ : Type} (P : PRNG σ) (scale : ℚ) (seed : Int) :
    ∀ (cfg : List (ℚ × ℚ)) (v : ℚ), pixelVal P 0 0 scale seed cfg v = v
  | [], v => rfl
  | fa :: rest, v => by
    show pixelVal P 0 0 scale seed rest _ = v
    rw [pixelVal_origin P scale seed rest]
    have h0 : ((0 : Nat) : ℚ) / scale * fa.1 = ((0 : Int) : ℚ) := by push_cast; ring
    rw [h0, octaveVal_intCast]
    ring

/-! ### Claim theorems -/

/-- C1: for every `(seed, width, height)` and fixed generation parameters
`(octaves, persistence, lacunarity, scale)`, two independent runs of the full
pipeline (noise generation followed by classification) — i.e. runs started from
two arbitrary global generator states — produce identical terrain grids. -/
theorem C1_determinism {σ : Type} (P : PRNG σ) (st1 st2 : σ)
    (width height octaves : Int) (persistence lacunarity scale : ℚ) (seed : Int) :
    fullPipeline P width height octaves persistence lacunarity scale seed st1 =
      fullPipeline P width height octaves persistence lacunarity scale seed st2 := by
  unfold fullPipeline generate_perlin_noise
  rw [rawGrid_fst, rawGrid_fst]

/-- C3: `gradient` computes exactly the spec's GradientSampler contract —
re-seed with `seed + cellX*100000 + cellY*1000`, one draw of an index in
`[0, 8)`, selection from the fixed 8-vector table (4 axis directions and 4
non-normalized diagonals), dot product with the displacement. -/
theorem C3_gradient_contract {σ : Type} (P : PRNG σ) (st : σ) (cellX cellY : Int)
    (sampleX sampleY : ℚ) (seed : Int) :
    (gradient P st cellX cellY sampleX sampleY seed).1 =
        gradientInfluenceSpec P cellX cellY sampleX sampleY seed ∧
      (∀ i : Fin 8, gradients i ∈ specGradientTable) ∧
      (∀ v ∈ specGradientTable, ∃ i : Fin 8, gradients i = v) :=
  ⟨rfl, by decide, by decide⟩

/-- C3 witness: the contract applied at a concrete call. -/
theorem C3_gradient_contract_witness :
    (gradient intPRNG 9 2 3 (5 : ℚ) 7 11).1 = gradientInfluenceSpec intPRNG 2 3 5 7 11 ∧
      gradients 4 ∈ specGradientTable ∧
      ∃ i : Fin 8, gradients i = (1, 1) :=
  ⟨(C3_gradient_contract intPRNG 9 2 3 5 7 11).1,
   (C3_gradient_contract intPRNG 9 2 3 5 7 11).2.1 4,
   (C3_gradient_contract intPRNG 9 2 3 5 7 11).2.2 (1, 1) (by decide)⟩

/-- C5: the terrain code partitions the normalized value range at the fixed
thresholds `0.4` and `0.7`: `v < 0.4 ↔ code 0`, `0.4 ≤ v < 0.7 ↔ code 1`,
`0.7 ≤ v ↔ code 2`. -/
theorem C5_threshold_partition (v : ℚ) :
    (v < 0.4 ↔ classify v = 0) ∧
      ((0.4 ≤ v ∧ v < 0.7) ↔ classify v = 1) ∧
      (0.7 ≤ v ↔ classify v = 2) := by
  unfold classify
  split_ifs with h1 h2
  · exact ⟨iff_of_true h1 rfl,
      iff_of_false (fun hc => absurd h1 (not_lt.2 hc.1)) (by decide),
      iff_of_false (fun hc => absurd (lt_of_lt_of_le h1 (by norm_num)) (not_lt.2 hc))
        (by decide)⟩
  · exact ⟨iff_of_false h1 (by decide),
      iff_of_true ⟨not_lt.1 h1, h2⟩ rfl,
      iff_of_false (fun hc => absurd h2 (not_lt.2 hc)) (by decide)⟩
  · exact ⟨iff_of_false h1 (by decide),
      iff_of_false (fun hc => absurd hc.2 h2) (by decide),
      iff_of_true (not_lt.1 h2) rfl⟩

/-- C8 counterexample: a `gradient` call does mutate the shared generator
state — with the concrete generator instance, the state after the call differs
from the state before it. -/
theorem C8_counterexample : (gradient intPRNG 0 0 0 0 0 0).2 ≠ (0 : Int) := by decide

/-- C8 (amended): each `gradient` call overwrites the shared global generator
state by re-seeding it, so it does have a side effect on shared state; however
both its return value and the state it leaves behind are independent of the
prior shared state, so calls never interfere with each other's results. -/
theorem C8_amended {σ : Type} (P : PRNG σ) (st1 st2 : σ) (cellX cellY : Int)
    (sampleX sampleY : ℚ) (seed : Int) :
    gradient P st1 cellX cellY sampleX sampleY seed =
      gradient P st2 cellX cellY sampleX sampleY seed := rfl

/-- C9: classification is total on all rationals, returns only codes in
`{0, 1, 2}`, maps everything below `0.4` (including negatives) to `0`, and
everything at or above `0.7` (including values above `1`) to `2`. -/
theorem C9_classifier_total (v : ℚ) :
    (classify v = 0 ∨ classify v = 1 ∨ classify v = 2) ∧
      (v < 0.4 → classify v = 0) ∧
      (0.7 ≤ v → classify v = 2) := by
  unfold classify
  split_ifs with h1 h2
  · exact ⟨Or.inl rfl, fun _ => rfl,
      fun hc => absurd (lt_of_lt_of_le h1 (by norm_num)) (not_lt.2 hc)⟩
  · exact ⟨Or.inr (Or.inl rfl), fun hc => absurd hc h1,
      fun hc => absurd h2 (not_lt.2 hc)⟩
  · exact ⟨Or.inr (Or.inr rfl), fun hc => absurd hc h1, fun _ => rfl⟩

/-- C9 witness: the classifier evaluated outside `[0, 1]`. -/
theorem C9_classifier_total_witness : classify (-1) = 0 ∧ classify 2 = 2 :=
  ⟨(C9_classifier_total (-1)).2.1 (by norm_num),
   (C9_classifier_total 2).2.2 (by norm_num)⟩

/-- C10: a single octave evaluated at a sample point with integer coordinates
is exactly `0`, and in particular the raw accumulated value at pixel `(0, 0)`
is `0` for every seed, octave count, persistence, lacunarity, and nonzero
scale. -/
theorem C10_lattice_zero {σ : Type} (P : PRNG σ) :
    (∀ (sampleX sampleY : ℚ) (seed : Int),
        (∃ m : Int, sampleX = (m : ℚ)) → (∃ n : Int, sampleY = (n : ℚ)) →
        octaveVal P sampleX sampleY seed = 0) ∧
      (∀ (octaves : Int) (persistence lacunarity scale : ℚ) (seed : Int),
        scale ≠ 0 →
        pixelVal P 0 0 scale seed
          (amplitudes_config octaves persistence lacunarity) 0 = 0) := by
  constructor
  · rintro sampleX sampleY seed ⟨m, rfl⟩ ⟨n, rfl⟩
    exact octaveVal_intCast P m n seed
  · intro octaves persistence lacunarity scale seed _
    exact pixelVal_origin P scale seed _ 0

/-- C10 witness: octave value at the integer lattice point `(2, 3)` and raw
accumulation at pixel `(0, 0)` with the route's default parameters. -/
theorem C10_lattice_zero_witness :
    octaveVal intPRNG 2 3 5 = 0 ∧
      pixelVal intPRNG 0 0 30 7 (amplitudes_config 4 (1 / 100) 2) 0 = 0 :=
  ⟨(C10_lattice_zero intPRNG).1 2 3 5 ⟨2, by norm_num⟩ ⟨3, by norm_num⟩,
   (C10_lattice_zero intPRNG).2 4 (1 / 100) 2 30 7 (by norm_num)⟩

/-- C7: the 1×1 scenario — `width=1, height=1, octaves=1, seed=0` with the
source's default `persistence=0.5, lacunarity=2.0, scale=30.0` — does not fail,
hits the `max-min == 0` degenerate guard, and classifies to exactly `[[1]]`,
for every generator instance and every starting generator state. -/
theorem C7_one_by_one {σ : Type} (P : PRNG σ) (st : σ) :
    fullPipeline P 1 1 1 (0.5 : ℚ) 2 30 0 st = Except.ok [[1]] := by
  have hpix : pixelVal P 0 0 30 0 (amplitudes_config 1 (0.5 : ℚ) 2) 0 = 0 :=
    pixelVal_origin P 30 0 _ 0
  norm_num [fullPipeline, generate_perlin_noise, rawGrid_fst, pureRaw, hpix,
    List.range_succ, normalizeMap, listMin, listMax, Except.map, classifyGrid, classify]

end WorldGen

namespace WorldGen

/-- The raw-field reference value of claim C2, written as the spec words it:
the sum over octaves `i` of `amplitude[i] = persistence^i` times the
fade-weighted bilinear interpolation of the four corner gradient dot products
at `sampleX = x/scale * frequency[i]`, `sampleY = y/scale * frequency[i]`,
with `frequency[i] = lacunarity^i`. -/
def specRawValue {σ : Type} (P : PRNG σ) (x y : Nat) (octaves : Int)
    (persistence lacunarity scale : ℚ) (seed : Int) : ℚ :=
  ((List.range octaves.toNat).map fun i =>
    persistence ^ i *
      (let frequency : ℚ := lacunarity ^ i
       let sampleX : ℚ := (x : ℚ) / scale * frequency
       let sampleY : ℚ := (y : ℚ) / scale * frequency
       let x0 : Int := Int.floor sampleX
       let y0 : Int := Int.floor sampleY
       let sx : ℚ := fade (sampleX - (x0 : ℚ))
       let sy : ℚ := fade (sampleY - (y0 : ℚ))
       let n00 : ℚ := gradientInfluenceSpec P x0 y0 sampleX sampleY seed
       let n10 : ℚ := gradientInfluenceSpec P (x0 + 1) y0 sampleX sampleY seed
       let n01 : ℚ := gradientInfluenceSpec P x0 (y0 + 1) sampleX sampleY seed
       let n11 : ℚ := gradientInfluenceSpec P (x0 + 1) (y0 + 1) sampleX sampleY seed
       lerp (lerp n00 n10 sx) (lerp n01 n11 sx) sy)).sum

/-- C2: for every pixel `(x, y)` inside a positive-sized grid, with
`octaves ≥ 1` and `scale ≠ 0`, the raw accumulated value before normalization
equals the spec's reference sum of amplitude-weighted, fade-smoothed bilinear
interpolations of corner gradient dot products. -/
theorem C2_raw_field {σ : Type} (P : PRNG σ) (width height octaves : Int)
    (persistence lacunarity scale : ℚ) (seed : Int) (st : σ) (x y : Nat)
    (hw : 0 < width) (hh : 0 < height) (hoct : 1 ≤ octaves) (hs : scale ≠ 0)
    (hx : (x : Int) < width) (hy : (y : Int) < height) :
    (((rawGrid P width height octaves persistence lacunarity scale seed st).1.getD y []).getD x 0)
      = specRawValue P x y octaves persistence lacunarity scale seed := by
  rw [rawGrid_fst]
  unfold pureRaw
  have hy' : y < height.toNat := by omega
  have hx' : x < width.toNat := by omega
  simp only [List.getD_eq_getElem?_getD, List.getElem?_map,
    List.getElem?_range hy', List.getElem?_range hx', Option.map_some', Option.getD_some]
  rw [pixelVal_eq_sum]
  unfold specRawValue amplitudes_config
  rw [List.map_map]
  simp only [zero_add]
  congr 1
  apply List.map_congr_left
  intro i _
  show octaveVal P _ _ seed * persistence ^ i = persistence ^ i * _
  rw [mul_comm]
  rfl

/-- C2 witness: the raw-field identity applied at the pixel `(0, 0)` of a
concrete 1×1 generation. -/
theorem C2_raw_field_witness :
    (((rawGrid intPRNG 1 1 1 (0.5 : ℚ) 2 30 0 0).1.getD 0 []).getD 0 0)
      = specRawValue intPRNG 0 0 1 (0.5 : ℚ) 2 30 0 :=
  C2_raw_field intPRNG 1 1 1 (0.5 : ℚ) 2 30 0 0 0 0 (by norm_num) (by norm_num)
    (by norm_num) (by norm_num) (by norm_num) (by norm_num)

end WorldGen

namespace WorldGen

/-- `np.min` on a zero-size map raises: normalization of a map with no cells is the error branch. -/
theorem normalizeMap_nil (noise_map : List (List ℚ)) (h : noise_map.flatten = []) :
    normalizeMap noise_map =
      Except.error "zero-size array to reduction operation minimum" := by
  unfold normalizeMap
  rw [h]

/-- Normalization of a map whose cells are `v :: vs`: rescale by global min/max, or fill with `0.5` when `max - min` is not positive. -/
theorem normalizeMap_cons (noise_map : List (List ℚ)) (v : ℚ) (vs : List ℚ)
    (h : noise_map.flatten = v :: vs) :
    normalizeMap noise_map =
      if listMax v vs - listMin v vs > 0 then
        Except.ok (noise_map.map (List.map fun c =>
          (c - listMin v vs) / (listMax v vs - listMin v vs)))
      else
        Except.ok (noise_map.map (List.map fun _ => (0.5 : ℚ))) := by
  unfold normalizeMap
  rw [h]

/-- A raw map with a zero dimension has no cells. -/
theorem pureRaw_flatten_eq_nil {σ : Type} (P : PRNG σ) (width height octaves : Int)
    (persistence lacunarity scale : ℚ) (seed : Int)
    (h : width.toNat = 0 ∨ height.toNat = 0) :
    (pureRaw P width height octaves persistence lacunarity scale seed).flatten = [] := by
  unfold pureRaw
  rcases h with h | h
  · rw [List.flatten_eq_nil_iff]
    intro l hl
    rw [List.mem_map] at hl
    obtain ⟨yy, _, rfl⟩ := hl
    rw [h]
    rfl
  · rw [h]
    rfl

/-- A raw map with positive dimensions has at least one cell. -/
theorem pureRaw_flatten_ne_nil {σ : Type} (P : PRNG σ) (width height octaves : Int)
    (persistence lacunarity scale : ℚ) (seed : Int)
    (hw : width.toNat ≠ 0) (hh : height.toNat ≠ 0) :
    (pureRaw P width height octaves persistence lacunarity scale seed).flatten ≠ [] := by
  unfold pureRaw
  intro hcontra
  rw [List.flatten_eq_nil_iff] at hcontra
  have hymem : (0 : Nat) ∈ List.range height.toNat :=
    List.mem_range.2 (Nat.pos_of_ne_zero hh)
  have hrow := hcontra _ (List.mem_map_of_mem _ hymem)
  have hlen := congrArg List.length hrow
  simp only [List.length_map, List.length_range, List.length_nil] at hlen
  exact hw hlen

/-- C6 (amended): invalid dimensions (`width <= 0` or `height <= 0`) and a zero
scale with at least one octave do make the generation call fail, but with
generic errors rather than a dedicated `InvalidParameter`; `octaves < 1` is NOT
rejected: the call silently succeeds and returns the degenerate flat field
(every cell `0.5`, classified entirely as grass). -/
theorem C6_invalid_parameter {σ : Type} (P : PRNG σ) (width height octaves : Int)
    (persistence lacunarity scale : ℚ) (seed : Int) (st : σ) :
    ((width ≤ 0 ∨ height ≤ 0 ∨ (scale = 0 ∧ 1 ≤ octaves)) →
      ∃ e, generate_perlin_noise P width height octaves persistence lacunarity scale seed st
        = Except.error e) ∧
    (1 ≤ width → 1 ≤ height → octaves < 1 →
      ∃ g, generate_perlin_noise P width height octaves persistence lacunarity scale seed st
        = Except.ok g ∧ ∀ row ∈ g, ∀ c ∈ row, c = (0.5 : ℚ)) := by
  constructor
  · intro h
    by_cases hneg : width < 0 ∨ height < 0
    · refine ⟨"negative dimensions are not allowed", ?_⟩
      unfold generate_perlin_noise
      rw [if_pos hneg]
    · by_cases hz : scale = 0 ∧ 1 ≤ width ∧ 1 ≤ height ∧ 1 ≤ octaves
      · refine ⟨"float division by zero", ?_⟩
        unfold generate_perlin_noise
        rw [if_neg hneg, if_pos hz]
      · have hwh : width.toNat = 0 ∨ height.toNat = 0 := by
          rcases h with h | h | ⟨hs0, ho⟩
          · left; omega
          · right; omega
          · by_contra hc
            push_neg at hc
            exact hz ⟨hs0, by omega, by omega, ho⟩
        refine ⟨"zero-size array to reduction operation minimum", ?_⟩
        unfold generate_perlin_noise
        rw [if_neg hneg, if_neg hz, rawGrid_fst]
        exact normalizeMap_nil _
          (pureRaw_flatten_eq_nil P width height octaves persistence lacunarity scale seed hwh)
  · intro hw hh ho
    have hneg : ¬(width < 0 ∨ height < 0) := by omega
    have hz : ¬(scale = 0 ∧ 1 ≤ width ∧ 1 ≤ height ∧ 1 ≤ octaves) := by
      rintro ⟨_, _, _, hoc⟩
      omega
    have hcfg : amplitudes_config octaves persistence lacunarity = [] := by
      unfold amplitudes_config
      have h0 : octaves.toNat = 0 := by omega
      rw [h0]
      rfl
    have hzero : ∀ a ∈ (pureRaw P width height octaves persistence lacunarity scale seed).flatten,
        a = 0 := by
      intro a ha
      rw [List.mem_flatten] at ha
      obtain ⟨r, hr, har⟩ := ha
      unfold pureRaw at hr
      rw [List.mem_map] at hr
      obtain ⟨yy, _, rfl⟩ := hr
      rw [List.mem_map] at har
      obtain ⟨xx, _, rfl⟩ := har
      rw [hcfg]
      rfl
    have hne := pureRaw_flatten_ne_nil P width height octaves persistence lacunarity scale seed
      (by omega) (by omega)
    obtain ⟨v, vs, hflat⟩ := List.exists_cons_of_ne_nil hne
    unfold generate_perlin_noise
    rw [if_neg hneg, if_neg hz, rawGrid_fst, normalizeMap_cons _ v vs hflat]
    have hmn : listMin v vs = 0 := hzero _ (hflat ▸ listMin_mem v vs)
    have hmx : listMax v vs = 0 := hzero _ (hflat ▸ listMax_mem v vs)
    have hcond : ¬(listMax v vs - listMin v vs > 0) := by
      rw [hmn, hmx]
      norm_num
    rw [if_neg hcond]
    refine ⟨_, rfl, ?_⟩
    intro row hrow c hc
    rw [List.mem_map] at hrow
    obtain ⟨r0, _, rfl⟩ := hrow
    rw [List.mem_map] at hc
    obtain ⟨a, _, rfl⟩ := hc
    rfl


/-- C4: on any successful generation (positive dimensions, no division by
zero), every normalized cell lies in `[0, 1]`; if the raw field is degenerate
(all raw cells equal, i.e. `max - min == 0`) every cell is `0.5`, and otherwise
at least one cell is exactly `0` and at least one exactly `1`. -/
theorem C4_normalization {σ : Type} (P : PRNG σ) (width height octaves : Int)
    (persistence lacunarity scale : ℚ) (seed : Int) (st : σ)
    (hw : 1 ≤ width) (hh : 1 ≤ height) (hok : ¬(scale = 0 ∧ 1 ≤ octaves)) :
    ∃ g, generate_perlin_noise P width height octaves persistence lacunarity scale seed st
        = Except.ok g ∧
      (∀ row ∈ g, ∀ c ∈ row, 0 ≤ c ∧ c ≤ 1) ∧
      ((∀ a ∈ (rawGrid P width height octaves persistence lacunarity scale seed st).1.flatten,
          ∀ b ∈ (rawGrid P width height octaves persistence lacunarity scale seed st).1.flatten,
          a = b) →
        ∀ row ∈ g, ∀ c ∈ row, c = (0.5 : ℚ)) ∧
      (¬(∀ a ∈ (rawGrid P width height octaves persistence lacunarity scale seed st).1.flatten,
          ∀ b ∈ (rawGrid P width height octaves persistence lacunarity scale seed st).1.flatten,
          a = b) →
        (∃ row ∈ g, ∃ c ∈ row, c = (0 : ℚ)) ∧ (∃ row ∈ g, ∃ c ∈ row, c = (1 : ℚ))) := by
  have hneg : ¬(width < 0 ∨ height < 0) := by omega
  have hz : ¬(scale = 0 ∧ 1 ≤ width ∧ 1 ≤ height ∧ 1 ≤ octaves) := by
    rintro ⟨h1, _, _, h4⟩
    exact hok ⟨h1, h4⟩
  have hne := pureRaw_flatten_ne_nil P width height octaves persistence lacunarity scale seed
    (by omega) (by omega)
  obtain ⟨v, vs, hflat⟩ := List.exists_cons_of_ne_nil hne
  unfold generate_perlin_noise
  rw [if_neg hneg, if_neg hz, rawGrid_fst, normalizeMap_cons _ v vs hflat]
  by_cases hdeg : listMax v vs - listMin v vs > 0
  · rw [if_pos hdeg]
    refine ⟨_, rfl, ?_, ?_, ?_⟩
    · intro row hrow c hc
      rw [List.mem_map] at hrow
      obtain ⟨r0, hr0, rfl⟩ := hrow
      rw [List.mem_map] at hc
      obtain ⟨a, ha, rfl⟩ := hc
      have hafl : a ∈ v :: vs := by
        rw [← hflat]
        exact List.mem_flatten.2 ⟨r0, hr0, ha⟩
      have h1 : listMin v vs ≤ a := listMin_le hafl
      have h2 : a ≤ listMax v vs := le_listMax hafl
      constructor
      · exact div_nonneg (by linarith) (le_of_lt hdeg)
      · rw [div_le_one hdeg]
        linarith
    · intro hall
      exfalso
      have h1 : listMin v vs = listMax v vs :=
        hall _ (hflat ▸ listMin_mem v vs) _ (hflat ▸ listMax_mem v vs)
      linarith
    · intro _
      constructor
      · obtain ⟨r0, hr0, har⟩ := List.mem_flatten.1 (hflat ▸ listMin_mem v vs)
        refine ⟨r0.map (fun c => (c - listMin v vs) / (listMax v vs - listMin v vs)),
          List.mem_map_of_mem _ hr0, _, List.mem_map_of_mem _ har, ?_⟩
        rw [sub_self, zero_div]
      · obtain ⟨r0, hr0, har⟩ := List.mem_flatten.1 (hflat ▸ listMax_mem v vs)
        refine ⟨r0.map (fun c => (c - listMin v vs) / (listMax v vs - listMin v vs)),
          List.mem_map_of_mem _ hr0, _, List.mem_map_of_mem _ har, ?_⟩
        exact div_self (ne_of_gt hdeg)
  · rw [if_neg hdeg]
    refine ⟨_, rfl, ?_, ?_, ?_⟩
    · intro row hrow c hc
      rw [List.mem_map] at hrow
      obtain ⟨r0, _, rfl⟩ := hrow
      rw [List.mem_map] at hc
      obtain ⟨a, _, rfl⟩ := hc
      norm_num
    · intro _ row hrow c hc
      rw [List.mem_map] at hrow
      obtain ⟨r0, _, rfl⟩ := hrow
      rw [List.mem_map] at hc
      obtain ⟨a, _, rfl⟩ := hc
      rfl
    · intro hnall
      exfalso
      apply hnall
      intro a ha b hb
      have ha' : a ∈ v :: vs := by rw [← hflat]; exact ha
      have hb' : b ∈ v :: vs := by rw [← hflat]; exact hb
      have h1 : listMin v vs ≤ a := listMin_le ha'
      have h2 : a ≤ listMax v vs := le_listMax ha'
      have h3 : listMin v vs ≤ b := listMin_le hb'
      have h4 : b ≤ listMax v vs := le_listMax hb'
      have h5 : listMax v vs - listMin v vs ≤ 0 := not_lt.1 hdeg
      linarith

/-- C6 counterexample: with `octaves = 0 < 1` (and even `scale = 0` at the same
time), the generation call does not raise at all — it returns the flat `0.5`
field, refuting the as-stated rejection claim at a concrete input. -/
theorem C6_counterexample :
    generate_perlin_noise intPRNG 1 1 0 (0.5 : ℚ) 2 0 0 0 =
      Except.ok [[(0.5 : ℚ)]] := by
  norm_num [generate_perlin_noise, rawGrid, gridLoop, rowLoop, pixelNoise,
    amplitudes_config, List.range_succ, normalizeMap, listMin, listMax]

/-- C6 witness: a zero dimension errors, while `octaves < 1` succeeds flat. -/
theorem C6_invalid_parameter_witness :
    (∃ e, generate_perlin_noise intPRNG 0 5 4 (0.5 : ℚ) 2 30 0 0 = Except.error e) ∧
      (∃ g, generate_perlin_noise intPRNG 1 1 (-2) (0.5 : ℚ) 2 30 0 0 = Except.ok g ∧
        ∀ row ∈ g, ∀ c ∈ row, c = (0.5 : ℚ)) :=
  ⟨(C6_invalid_parameter intPRNG 0 5 4 (0.5 : ℚ) 2 30 0 0).1 (Or.inl (by norm_num)),
   (C6_invalid_parameter intPRNG 1 1 (-2) (0.5 : ℚ) 2 30 0 0).2 (by norm_num)
     (by norm_num) (by norm_num)⟩

/-- C4 witness: the normalization postcondition at a concrete 1x1 generation
(which lands in the degenerate-flat case). -/
theorem C4_normalization_witness :
    ∃ g, generate_perlin_noise intPRNG 1 1 1 (0.5 : ℚ) 2 30 0 0
        = Except.ok g ∧
      (∀ row ∈ g, ∀ c ∈ row, 0 ≤ c ∧ c ≤ 1) ∧
      ((∀ a ∈ (rawGrid intPRNG 1 1 1 (0.5 : ℚ) 2 30 0 0).1.flatten,
          ∀ b ∈ (rawGrid intPRNG 1 1 1 (0.5 : ℚ) 2 30 0 0).1.flatten,
          a = b) →
        ∀ row ∈ g, ∀ c ∈ row, c = (0.5 : ℚ)) ∧
      (¬(∀ a ∈ (rawGrid intPRNG 1 1 1 (0.5 : ℚ) 2 30 0 0).1.flatten,
          ∀ b ∈ (rawGrid intPRNG 1 1 1 (0.5 : ℚ) 2 30 0 0).1.flatten,
          a = b) →
        (∃ row ∈ g, ∃ c ∈ row, c = (0 : ℚ)) ∧ (∃ row ∈ g, ∃ c ∈ row, c = (1 : ℚ))) :=
  C4_normalization intPRNG 1 1 1 (0.5 : ℚ) 2 30 0 0 (by norm_num) (by norm_num)
    (by norm_num)

end WorldGen
